import Mathlib

/-!
Verification of the `dusk` HTTP request client (repository vicanso/dusk).

The repository contains several historical revisions of the same design.
The claims cite the three-scope revision: the `Dusk` client whose
`EmitRequest` / `EmitResponse` / `EmitDone` loops iterate from the most
recently appended listener backwards (src/unnamed/part_005, second
document), the `Instance` with config support (src/instance.go, first
document) and the mutex-protected `HTTPTrace` (src/unnamed/part_003,
first document).  The older single-scope revision of the tracer
(`HTTPTimeline`, src/dusk.go second document) is embedded as well, since
claim C8 cites both tracer implementations.

Modelling conventions:
* Go `error` values are opaque; they are modelled as `Nat`, a nilable
  `error` as `Option Nat` (`none` = `nil`).
* Go `time.Time` is modelled as `Nat`, with `0` playing the role of the
  zero time (`IsZero` = `= 0`); `time.Duration` differences are `Int`
  so that a negative computed duration is representable.
* `[]byte` is `List Nat`; a nilable slice is `Option (List Nat)`.
* Listeners receive the mutable part of the `Dusk` context (`Request`,
  `Response`, `Body`, plus the side-channel log that the repository's own
  tests build by appending identifiers from inside listeners) and return
  the updated context together with the nilable error they return.
* The injected `http.Client` is the function `client : Option Req → Sum Resp Nat`
  (`Sum.inl` a response, `Sum.inr` a transport error); `getClient`'s
  fallback to `http.DefaultClient` is absorbed into this field.
* `json.Marshal` / `http.NewRequest` failures (both happen in
  `newRequest` before the timeout block) are abstracted by the field
  `buildErr : Option Nat`.
-/

namespace DuskVerif

/-- An `*http.Request`; only the rendered URL is observable in the claims. -/
structure Req where
  url : String
deriving DecidableEq, Repr

/-- An `*http.Response`: status code plus the bytes of its body stream. -/
structure Resp where
  status : Nat
  stream : List Nat
deriving DecidableEq, Repr

/-- The mutable fields of the `Dusk` context that listeners read and write:
`d.Request`, `d.Response`, `d.Body`, `d.Err`, and the ordered log of
listener identifiers that the repository's tests accumulate from inside
listeners (the `events` slice of `TestEvent`). -/
structure DuskData where
  request : Option Req := none
  response : Option Resp := none
  body : Option (List Nat) := none
  err : Option Nat := none
  log : List Nat := []
deriving DecidableEq, Repr

/-- `RequestListener func(*http.Request, *Dusk) (newErr error)`:
receives `d.Request` and the context, may mutate the context, returns a
nilable error. -/
def RequestListener : Type := Option Req → DuskData → DuskData × Option Nat

/-- `ResponseListener func(*http.Response, *Dusk) (newErr error)`. -/
def ResponseListener : Type := Option Resp → DuskData → DuskData × Option Nat

/-- `ErrorListener func(error, *Dusk) (newErr error)`. -/
def ErrorListener : Type := Nat → DuskData → DuskData × Option Nat

/-- `RequestEvent` pairs a listener with its phase tag `t`. -/
structure RequestEvent where
  ln : RequestListener
  t : Nat

/-- `ResponseEvent` pairs a listener with its phase tag `t`. -/
structure ResponseEvent where
  ln : ResponseListener
  t : Nat

/-- A done listener entry.  `user` is a caller-registered
`DoneListener func(*Dusk) error`; `cancel` is the closure
`func(_ *Dusk) error { cancel(); return nil }` that `newRequest`
auto-registers when a timeout is configured (its `cancel()` releases the
derived context, which no user listener can invoke). -/
inductive DoneEntry where
  | user : (DuskData → DuskData × Option Nat) → DoneEntry
  | cancel : DoneEntry

/-- Whether a done entry is a caller-registered listener. -/
def DoneEntry.isUser : DoneEntry → Bool
  | .user _ => true
  | .cancel => false

/-- `EventTypeBefore` (iota value 1). -/
def EventTypeBefore : Nat := 1

/-- `EventTypeAfter` (iota value 2). -/
def EventTypeAfter : Nat := 2

/-! ### URL rendering (`GetURL`, `Param`, `Query`, `Queries`)

`d.query` is a `url.Values`; `Query` uses `Values.Set` (replace the
key's values by the singleton).  `Values.Encode` percent-escapes keys
and values and emits them sorted by key. -/

/-- Byte-wise string comparison, as used by `sort.Strings` inside
`url.Values.Encode` (ASCII strings compare identically byte-wise and
character-wise). -/
def charsLe : List Char → List Char → Bool
  | [], _ => true
  | _ :: _, [] => false
  | a :: as, b :: bs => if a < b then true else if b < a then false else charsLe as bs

/-- String comparison used for sorting query keys. -/
def strLe (a b : String) : Bool := charsLe a.data b.data

/-- Insert one key/value pair into a key-sorted list. -/
def insertSorted (p : String × String) : List (String × String) → List (String × String)
  | [] => [p]
  | q :: rest => if strLe p.1 q.1 then p :: q :: rest else q :: insertSorted p rest

/-- Sort an association list by key (the key ordering of
`url.Values.Encode`). -/
def sortByKey (l : List (String × String)) : List (String × String) :=
  l.foldr insertSorted []

/-- Characters `url.QueryEscape` leaves unescaped. -/
def unreservedChar (c : Char) : Bool :=
  c.isAlphanum || c = '-' || c = '_' || c = '.' || c = '~'

/-- Upper-case hexadecimal digit. -/
def hexDigit (n : Nat) : Char :=
  if n < 10 then Char.ofNat (48 + n) else Char.ofNat (55 + n)

/-- `url.QueryEscape`: spaces become `+`, unreserved bytes stay, the rest
becomes `%XX`. -/
def queryEscape (s : String) : String :=
  s.data.foldl
    (fun acc c =>
      if c = ' ' then acc ++ "+"
      else if unreservedChar c then acc.push c
      else acc ++ "%" ++ String.singleton (hexDigit (c.toNat / 16 % 16))
        ++ String.singleton (hexDigit (c.toNat % 16)))
    ""

/-- `url.Values.Encode`: escaped `key=value` pairs, sorted by key, joined
with `&` (each key here holds a single value, as `Values.Set` keeps only
the last write). -/
def encodeValues (q : List (String × String)) : String :=
  String.intercalate "&" ((sortByKey q).map (fun p => queryEscape p.1 ++ "=" ++ queryEscape p.2))

/-- Map assignment `m[k] = v` for a Go `map` modelled as an association
list: replace the existing binding or append a new one. -/
def mapSet (l : List (String × String)) (k v : String) : List (String × String) :=
  if l.any (fun p => p.1 = k) then l.map (fun p => if p.1 = k then (k, v) else p)
  else l ++ [(k, v)]

/-- Whether `pat` is a prefix of the character list. -/
def isPrefixList : List Char → List Char → Bool
  | [], _ => true
  | _ :: _, [] => false
  | p :: ps, c :: cs => p = c && isPrefixList ps cs

/-- Replace every occurrence of `pat` (non-empty here: always `:name`)
by `rep`, scanning left to right as `strings.Replace(s, old, new, -1)`
does; the fuel is the string length, enough since every step consumes at
least one character. -/
def replaceFuel (pat rep : List Char) : Nat → List Char → List Char
  | 0, s => s
  | _ + 1, [] => []
  | fuel + 1, c :: rest =>
      if isPrefixList pat (c :: rest) then
        rep ++ replaceFuel pat rep fuel (List.drop (pat.length - 1) rest)
      else c :: replaceFuel pat rep fuel rest

/-- `strings.Replace(s, pat, rep, -1)`. -/
def stringReplace (s pat rep : String) : String :=
  ⟨replaceFuel pat.data rep.data s.data.length s.data⟩

/-- `strings.Contains(s, c)` for a single character. -/
def strContains (s : String) (c : Char) : Bool :=
  s.data.any (fun x => x = c)

/-- `strings.Replace(url, ":"+key, value, -1)` folded over the `params`
map (Go map iteration order is unspecified; the claims use a single
parameter, for which any order agrees). -/
def substParams : List (String × String) → String → String
  | [], u => u
  | (k, v) :: rest, u => substParams rest (stringReplace u (":" ++ k) v)

/-! ### Tracer statistics

Two revisions are embedded.  `HTTPTimeline.Stats` (src/dusk.go, second
document, lines 598-621) guards every duration computation only by the
phase's *start* timestamp.  `HTTPTrace.Stats` (src/unnamed/part_003,
lines 130-155) guards by *both* endpoints, except for the content
transfer, whose end (`Done`) is first defaulted to `time.Now()` when
unset.  `Stats` mutates `Done` in place in Go; here the current time is
the explicit argument `now` and only the returned statistics matter. -/

/-- `HTTPTimelineStats` / the stats record shared by both tracer
revisions.  Durations are `Int` so that a negative computed value is
representable. -/
structure HTTPTimelineStats where
  DNSLookup : Int
  TCPConnection : Int
  TLSHandshake : Int
  ServerProcessing : Int
  ContentTransfer : Int
  Total : Int
deriving DecidableEq, Repr

/-- The timestamp set shared by both tracer revisions (a `0` timestamp is
the zero `time.Time`). -/
structure HTTPTimeline where
  Start : Nat := 0
  DNSStart : Nat := 0
  DNSDone : Nat := 0
  ConnectStart : Nat := 0
  ConnectDone : Nat := 0
  GotConnect : Nat := 0
  GotFirstResponseByte : Nat := 0
  TLSHandshakeStart : Nat := 0
  TLSHandshakeDone : Nat := 0
  Done : Nat := 0
deriving DecidableEq, Repr

/-- `HTTPTrace` carries the same timestamps (its metadata fields --
host, addresses, TLS details -- are irrelevant to the claims). -/
structure HTTPTrace where
  Start : Nat := 0
  DNSStart : Nat := 0
  DNSDone : Nat := 0
  ConnectStart : Nat := 0
  ConnectDone : Nat := 0
  GotConnect : Nat := 0
  GotFirstResponseByte : Nat := 0
  TLSHandshakeStart : Nat := 0
  TLSHandshakeDone : Nat := 0
  Done : Nat := 0
deriving DecidableEq, Repr

/-- `HTTPTimeline.Stats` (src/dusk.go lines 598-621): each guard checks
only the start timestamp of its phase. -/
def HTTPTimeline.Stats (tl : HTTPTimeline) (now : Nat) : HTTPTimelineStats :=
  let dns : Int := if tl.DNSStart ≠ 0 then (tl.DNSDone : Int) - (tl.DNSStart : Int) else 0
  let tcp : Int := if tl.ConnectStart ≠ 0 then (tl.ConnectDone : Int) - (tl.ConnectStart : Int) else 0
  let tls : Int := if tl.TLSHandshakeStart ≠ 0 then (tl.TLSHandshakeDone : Int) - (tl.TLSHandshakeStart : Int) else 0
  let sp : Int := if tl.GotConnect ≠ 0 then (tl.GotFirstResponseByte : Int) - (tl.GotConnect : Int) else 0
  let done : Nat := if tl.Done = 0 then now else tl.Done
  let ct : Int := if tl.GotFirstResponseByte ≠ 0 then (done : Int) - (tl.GotFirstResponseByte : Int) else 0
  ⟨dns, tcp, tls, sp, ct, (done : Int) - (tl.Start : Int)⟩

/-- `HTTPTrace.Stats` (src/unnamed/part_003 lines 130-155): each of the
first four guards checks both endpoints; `Done` is defaulted to `now`
when zero before the content-transfer and total durations are taken. -/
def HTTPTrace.Stats (ht : HTTPTrace) (now : Nat) : HTTPTimelineStats :=
  let dns : Int := if ht.DNSStart ≠ 0 ∧ ht.DNSDone ≠ 0 then (ht.DNSDone : Int) - (ht.DNSStart : Int) else 0
  let tcp : Int := if ht.ConnectStart ≠ 0 ∧ ht.ConnectDone ≠ 0 then (ht.ConnectDone : Int) - (ht.ConnectStart : Int) else 0
  let tls : Int := if ht.TLSHandshakeStart ≠ 0 ∧ ht.TLSHandshakeDone ≠ 0 then (ht.TLSHandshakeDone : Int) - (ht.TLSHandshakeStart : Int) else 0
  let sp : Int := if ht.GotConnect ≠ 0 ∧ ht.GotFirstResponseByte ≠ 0 then (ht.GotFirstResponseByte : Int) - (ht.GotConnect : Int) else 0
  let done : Nat := if ht.Done = 0 then now else ht.Done
  let ct : Int := if ht.GotFirstResponseByte ≠ 0 then (done : Int) - (ht.GotFirstResponseByte : Int) else 0
  ⟨dns, tcp, tls, sp, ct, (done : Int) - (ht.Start : Int)⟩

/-! ### The Dusk client -/

/-- The `Dusk` client (src/unnamed/part_005, second document, lines
457-485).  `data` collects the mutable context fields listeners operate
on; the remaining fields are the builder state.  `client` is the
resolved `http.Client` (`getClient`'s fallback already applied).
`sendCount` counts `c.Do(req)` invocations, `bodyReadCount` counts
`ioutil.ReadAll(resp.Body)` invocations and `cancelCount` counts
invocations of the auto-registered timeout `cancel()` closure; these
counters are the observables the claims are stated over. -/
structure Dusk where
  data : DuskData := {}
  url : String := ""
  method : String := ""
  params : List (String × String) := []
  query : Option (List (String × String)) := none
  timeout : Nat := 0
  buildErr : Option Nat := none
  enabledTrace : Bool := false
  htSet : Bool := false
  client : Option Req → Sum Resp Nat := fun _ => Sum.inr 0
  requestEvents : List RequestEvent := []
  responseEvents : List ResponseEvent := []
  errorListeners : List ErrorListener := []
  doneListeners : List DoneEntry := []
  sendCount : Nat := 0
  bodyReadCount : Nat := 0
  cancelCount : Nat := 0

/-- `Param(key, value)`: `d.params[key] = value`. -/
def Dusk.Param (d : Dusk) (k v : String) : Dusk :=
  { d with params := mapSet d.params k v }

/-- `Query(key, value)`: allocate `d.query` on first use, then
`d.query.Set(key, value)`. -/
def Dusk.Query (d : Dusk) (k v : String) : Dusk :=
  { d with query := some (mapSet (d.query.getD []) k v) }

/-- `Queries(map)`: calls `Query` for every pair (Go map iteration order
is unspecified; the list order is used here). -/
def Dusk.Queries (d : Dusk) (l : List (String × String)) : Dusk :=
  l.foldl (fun d p => d.Query p.1 p.2) d

/-- `Timeout(timeout)`. -/
def Dusk.Timeout (d : Dusk) (t : Nat) : Dusk :=
  { d with timeout := t }

/-- `GetURL` (src/unnamed/part_005 lines 1130-1144): substitute every
`:name` path parameter, then append the encoded query joined with `&`
when the URL already contains `?` and with `?` otherwise. -/
def Dusk.GetURL (d : Dusk) : String :=
  let url := substParams d.params d.url
  match d.query with
  | none => url
  | some q =>
      let qs := encodeValues q
      if strContains url '?' then url ++ "&" ++ qs else url ++ "?" ++ qs

/-- `addRequestEvent(events...)`. -/
def Dusk.addRequestEvent (d : Dusk) (events : List RequestEvent) : Dusk :=
  { d with requestEvents := d.requestEvents ++ events }

/-- `AddRequestListener(ln, eventType)`. -/
def Dusk.AddRequestListener (d : Dusk) (ln : RequestListener) (t : Nat) : Dusk :=
  d.addRequestEvent [⟨ln, t⟩]

/-- `addResponseEvent(events...)`. -/
def Dusk.addResponseEvent (d : Dusk) (events : List ResponseEvent) : Dusk :=
  { d with responseEvents := d.responseEvents ++ events }

/-- `AddResponseListener(ln, eventType)`. -/
def Dusk.AddResponseListener (d : Dusk) (ln : ResponseListener) (t : Nat) : Dusk :=
  d.addResponseEvent [⟨ln, t⟩]

/-- `AddErrorListener(lnList...)`. -/
def Dusk.AddErrorListener (d : Dusk) (lns : List ErrorListener) : Dusk :=
  { d with errorListeners := d.errorListeners ++ lns }

/-- `AddDoneListener(lnList...)` (caller-registered listeners are `user`
entries). -/
def Dusk.AddDoneListener (d : Dusk) (lns : List DoneEntry) : Dusk :=
  { d with doneListeners := d.doneListeners ++ lns }

/-! ### Listener firing

`EmitRequest`, `EmitResponse` and `EmitDone` run their loop
`for i := size - 1; i >= 0; i--`, i.e. over the reversed listener list;
`EmitError` runs `for _, ln := range d.errorListeners`, i.e. forwards.
Every loop returns the first non-nil listener error immediately. -/

/-- Body of the `EmitRequest` loop over an (already reversed) event
list: skip entries of a different phase, pass `d.Request` and the
context to each matching listener, stop at the first error. -/
def runRequestEvents (t : Nat) : List RequestEvent → DuskData → DuskData × Option Nat
  | [], dd => (dd, none)
  | e :: rest, dd =>
      if e.t = t then
        match e.ln dd.request dd with
        | (dd1, some err) => (dd1, some err)
        | (dd1, none) => runRequestEvents t rest dd1
      else runRequestEvents t rest dd

/-- `EmitRequest(t)` (src/unnamed/part_005 lines 756-774): the loop runs
from the last appended event backwards. -/
def Dusk.EmitRequest (d : Dusk) (t : Nat) : Dusk × Option Nat :=
  let (dd, e) := runRequestEvents t d.requestEvents.reverse d.data
  ({ d with data := dd }, e)

/-- Body of the `EmitResponse` loop over an (already reversed) event
list. -/
def runResponseEvents (t : Nat) : List ResponseEvent → DuskData → DuskData × Option Nat
  | [], dd => (dd, none)
  | e :: rest, dd =>
      if e.t = t then
        match e.ln dd.response dd with
        | (dd1, some err) => (dd1, some err)
        | (dd1, none) => runResponseEvents t rest dd1
      else runResponseEvents t rest dd

/-- `EmitResponse(t)` (src/unnamed/part_005 lines 793-809): the loop
runs from the last appended event backwards. -/
def Dusk.EmitResponse (d : Dusk) (t : Nat) : Dusk × Option Nat :=
  let (dd, e) := runResponseEvents t d.responseEvents.reverse d.data
  ({ d with data := dd }, e)

/-- Body of the `EmitError` loop: every listener receives the same
`currentErr`; the first non-nil returned error is propagated at once. -/
def runErrorListeners (cur : Nat) : List ErrorListener → DuskData → DuskData × Option Nat
  | [], dd => (dd, none)
  | ln :: rest, dd =>
      match ln cur dd with
      | (dd1, some err) => (dd1, some err)
      | (dd1, none) => runErrorListeners cur rest dd1

/-- `EmitError(currentErr)` (src/unnamed/part_005 lines 821-829): the
loop runs forwards over `d.errorListeners`. -/
def Dusk.EmitError (d : Dusk) (cur : Nat) : Dusk × Option Nat :=
  let (dd, e) := runErrorListeners cur d.errorListeners d.data
  ({ d with data := dd }, e)

/-- Body of the `EmitDone` loop over an (already reversed) entry list.
The `cancel` entry runs the captured `cancel()` (counted in `cc`) and
returns `nil`; a `user` entry runs the registered listener. -/
def runDoneListeners : List DoneEntry → DuskData → Nat → DuskData × Nat × Option Nat
  | [], dd, cc => (dd, cc, none)
  | .cancel :: rest, dd, cc => runDoneListeners rest dd (cc + 1)
  | .user f :: rest, dd, cc =>
      match f dd with
      | (dd1, some err) => (dd1, cc, some err)
      | (dd1, none) => runDoneListeners rest dd1 cc

/-- `EmitDone()` (src/unnamed/part_005 lines 724-737): the loop runs
from the last appended listener backwards; the first non-nil error is
returned immediately. -/
def Dusk.EmitDone (d : Dusk) : Dusk × Option Nat :=
  let (dd, cc, e) := runDoneListeners d.doneListeners.reverse d.data d.cancelCount
  ({ d with data := dd, cancelCount := cc }, e)

/-! ### Request construction and the execution engine -/

/-- `newRequest` (src/unnamed/part_005 lines 915-974).  The body
serialisation and `http.NewRequest` failures — both of which happen
before the timeout block — are abstracted by `buildErr`.  When a
non-zero timeout is set, a bounded sub-context is derived and the
`cancel` done-entry is appended; header copying and the context itself
are not observable in the claims. -/
def Dusk.newRequest (d : Dusk) : Dusk × Sum Req Nat :=
  match d.buildErr with
  | some e => (d, Sum.inr e)
  | none =>
      let req : Req := ⟨d.GetURL⟩
      let d1 :=
        if d.timeout ≠ 0 then
          { d with doneListeners := d.doneListeners ++ [DoneEntry.cancel] }
        else d
      (d1, Sum.inl req)

/-- `do` (src/unnamed/part_005 lines 1034-1089).  The local `req` is
captured before `EmitRequest(EventTypeBefore)` runs; the trace context
branch sits between that emit and its error check; `c.Do(req)` is the
single network send; a body pre-populated by a Before-phase response
listener returns before the read and before `EmitResponse(EventTypeAfter)`. -/
def Dusk.doCore (d : Dusk) : Dusk × Option Nat :=
  let req := d.data.request
  let (d1, e1) := d.EmitRequest EventTypeBefore
  let d2 := if d1.enabledTrace then { d1 with htSet := true } else d1
  match e1 with
  | some e => (d2, some e)
  | none =>
      match d2.client req with
      | Sum.inr e => ({ d2 with sendCount := d2.sendCount + 1 }, some e)
      | Sum.inl resp =>
          let d3 := { d2 with sendCount := d2.sendCount + 1 }
          let (d4, e2) := d3.EmitRequest EventTypeAfter
          match e2 with
          | some e => (d4, some e)
          | none =>
              let d5 := { d4 with data := { d4.data with response := some resp } }
              let (d6, e3) := d5.EmitResponse EventTypeBefore
              match e3 with
              | some e => (d6, some e)
              | none =>
                  let resp2 := d6.data.response
                  if d6.data.body ≠ none then (d6, none)
                  else
                    let buf := (resp2.map Resp.stream).getD []
                    let d7 := { d6 with bodyReadCount := d6.bodyReadCount + 1,
                                        data := { d6.data with body := some buf } }
                    d7.EmitResponse EventTypeAfter

/-- The `if err != nil` block of the `done` closure: fire the error
listeners on the terminal error; a non-nil result overwrites the error,
otherwise the original error is kept. -/
def Dusk.applyError (d : Dusk) (err : Option Nat) : Dusk × Option Nat :=
  match err with
  | some e =>
      let (dx, ne) := d.EmitError e
      match ne with
      | some e2 => (dx, some e2)
      | none => (dx, some e)
  | none => (d, none)

/-- The `done` closure of `Do` (src/unnamed/part_005 lines 1093-1105):
on a non-nil terminal error fire the error listeners (a non-nil result
overwrites the error), then fire the done listeners unconditionally (a
non-nil result overwrites the error), and store the final error in
`d.Err`. -/
def Dusk.doneFinal (d : Dusk) (err : Option Nat) : Dusk × Option Nat :=
  let (d1, err1) := d.applyError err
  let (d2, e2) := d1.EmitDone
  let errF := match e2 with
    | some e => some e
    | none => err1
  ({ d2 with data := { d2.data with err := errF } }, errF)

/-- `Do` (src/unnamed/part_005 lines 1092-1122): build the request,
run `do`, and on every path run the `done` closure exactly once; the
returned response and body are captured before `done` runs, and are nil
on the failure paths. -/
def Dusk.Do (d : Dusk) : Dusk × (Option Resp × Option (List Nat) × Option Nat) :=
  match d.newRequest with
  | (d1, Sum.inr e) =>
      let (d2, errF) := d1.doneFinal (some e)
      (d2, (none, none, errF))
  | (d1, Sum.inl req) =>
      let d2 := { d1 with data := { d1.data with request := some req } }
      let (d3, e) := d2.doCore
      match e with
      | some er =>
          let (d4, errF) := d3.doneFinal (some er)
          (d4, (none, none, errF))
      | none =>
          let resp := d3.data.response
          let body := d3.data.body
          let (d4, errF) := d3.doneFinal none
          (d4, (resp, body, errF))

/-! ### Scope construction: global registry, constructors, instances -/

/-- The process-wide listener registry (`globalRequestEvents`,
`globalResponseEvents`, `globalErrorListeners`, `doneListeners` of
src/unnamed/part_005 lines 426-434), passed explicitly. -/
structure GlobalRegistry where
  requestEvents : List RequestEvent := []
  responseEvents : List ResponseEvent := []
  errorListeners : List ErrorListener := []
  doneListeners : List DoneEntry := []

/-- `newDusk(method, requestURL)` (src/unnamed/part_005 lines 841-872)
with a nil `defaultConfig`: the global listener lists are appended to
the fresh (empty) per-call lists, so they sit first in every list. -/
def newDusk (g : GlobalRegistry) (method url : String) : Dusk :=
  let d : Dusk := { url := url, method := method }
  let d := d.addRequestEvent g.requestEvents
  let d := d.addResponseEvent g.responseEvents
  let d := d.AddErrorListener g.errorListeners
  d.AddDoneListener g.doneListeners

/-- `Get(url)`. -/
def Get (g : GlobalRegistry) (url : String) : Dusk := newDusk g "GET" url

/-- Instance configuration (`Config`, src/unnamed/part_005 lines
438-445); the header map only matters through the header-copying
request listener `init` registers. -/
structure Config where
  timeout : Nat := 0
  headers : List (String × String) := []

/-- `Instance` (src/instance.go lines 21-30). -/
structure Instance where
  requestEvents : List RequestEvent := []
  responseEvent : List ResponseEvent := []
  errorListeners : List ErrorListener := []
  doneListeners : List DoneEntry := []
  config : Option Config := none

/-- `Instance.init(d)` (src/instance.go lines 86-112): append the
instance-scoped listener lists after the global ones, then apply the
config: a non-empty header map registers a Before-phase request
listener copying the headers (headers are outside the modelled request
fields, so that listener is a context no-op here), and a non-zero
config timeout is installed. -/
def Instance.init (ins : Instance) (d : Dusk) : Dusk :=
  let d := d.addRequestEvent ins.requestEvents
  let d := d.addResponseEvent ins.responseEvent
  let d := d.AddErrorListener ins.errorListeners
  let d := d.AddDoneListener ins.doneListeners
  match ins.config with
  | none => d
  | some cfg =>
      let d :=
        if cfg.headers ≠ [] then
          d.AddRequestListener (fun _ dd => (dd, none)) EventTypeBefore
        else d
      if cfg.timeout ≠ 0 then d.Timeout cfg.timeout else d

/-- `Instance.Get(url)` (src/instance.go lines 115-120, with a config
carrying no base URL). -/
def Instance.Get (ins : Instance) (g : GlobalRegistry) (url : String) : Dusk :=
  ins.init (DuskVerif.Get g url)

/-! ### Concrete listeners used to observe firing order

These mirror the listeners of the repository's own `TestEvent`
(src/unnamed/part_004 lines 1020-1130): each appends a fixed identifier
to a shared ordered log and returns `nil`. -/

/-- A request listener that logs `id` and returns `nil`. -/
def logReqListener (id : Nat) : RequestListener :=
  fun _ dd => ({ dd with log := dd.log ++ [id] }, none)

/-- A phase-tagged logging request event. -/
def logReqEvent (t id : Nat) : RequestEvent := ⟨logReqListener id, t⟩

/-- A request listener that returns the error `e`. -/
def errReqEvent (t e : Nat) : RequestEvent := ⟨fun _ dd => (dd, some e), t⟩

/-- A response listener that logs `id` and returns `nil`. -/
def logRespListener (id : Nat) : ResponseListener :=
  fun _ dd => ({ dd with log := dd.log ++ [id] }, none)

/-- A phase-tagged logging response event. -/
def logRespEvent (t id : Nat) : ResponseEvent := ⟨logRespListener id, t⟩

/-- A response listener that writes the decoded body directly into the
context (the `d.Body = []byte(...)` style of `TestEmitResponse`,
"read body by custom"). -/
def setBodyRespEvent (t : Nat) (bs : List Nat) : ResponseEvent :=
  ⟨fun _ dd => ({ dd with body := some bs }, none), t⟩

/-- A done listener that logs `id` and returns `nil`. -/
def logDoneEntry (id : Nat) : DoneEntry :=
  .user fun dd => ({ dd with log := dd.log ++ [id] }, none)

/-- A done listener that returns the error `e`. -/
def errDoneEntry (e : Nat) : DoneEntry := .user fun dd => (dd, some e)

/-- An error listener that logs `id` and returns `nil`. -/
def logErrListener (id : Nat) : ErrorListener :=
  fun _ dd => ({ dd with log := dd.log ++ [id] }, none)

/-- An error listener that logs the error value it receives and returns
`nil`. -/
def recvErrListener : ErrorListener :=
  fun cur dd => ({ dd with log := dd.log ++ [cur] }, none)

/-- An error listener that returns the replacement error `e`. -/
def constErrListener (e : Nat) : ErrorListener := fun _ dd => (dd, some e)

/-! ### Lemmas about the firing loops -/

theorem runRequestEvents_append (t : Nat) (l1 l2 : List RequestEvent) (dd : DuskData) :
    runRequestEvents t (l1 ++ l2) dd =
      match runRequestEvents t l1 dd with
      | (dd1, none) => runRequestEvents t l2 dd1
      | (dd1, some e) => (dd1, some e) := by
  induction l1 generalizing dd with
  | nil => simp [runRequestEvents]
  | cons e rest ih =>
      by_cases h : e.t = t
      · simp only [List.cons_append, runRequestEvents, h, if_true]
        rcases e.ln dd.request dd with ⟨dd1, er⟩
        cases er <;> simp [ih]
      · simp only [List.cons_append, runRequestEvents, h, if_false]
        exact ih dd

theorem runRequestEvents_log (t : Nat) (ids : List Nat) (dd : DuskData) :
    runRequestEvents t (ids.map (logReqEvent t)) dd =
      ({ dd with log := dd.log ++ ids }, none) := by
  induction ids generalizing dd with
  | nil => simp [runRequestEvents]
  | cons i rest ih => simp [runRequestEvents, logReqEvent, logReqListener, ih]

theorem runResponseEvents_append (t : Nat) (l1 l2 : List ResponseEvent) (dd : DuskData) :
    runResponseEvents t (l1 ++ l2) dd =
      match runResponseEvents t l1 dd with
      | (dd1, none) => runResponseEvents t l2 dd1
      | (dd1, some e) => (dd1, some e) := by
  induction l1 generalizing dd with
  | nil => simp [runResponseEvents]
  | cons e rest ih =>
      by_cases h : e.t = t
      · simp only [List.cons_append, runResponseEvents, h, if_true]
        rcases e.ln dd.response dd with ⟨dd1, er⟩
        cases er <;> simp [ih]
      · simp only [List.cons_append, runResponseEvents, h, if_false]
        exact ih dd

theorem runResponseEvents_log (t : Nat) (ids : List Nat) (dd : DuskData) :
    runResponseEvents t (ids.map (logRespEvent t)) dd =
      ({ dd with log := dd.log ++ ids }, none) := by
  induction ids generalizing dd with
  | nil => simp [runResponseEvents]
  | cons i rest ih => simp [runResponseEvents, logRespEvent, logRespListener, ih]

theorem runDoneListeners_append (l1 l2 : List DoneEntry) (dd : DuskData) (cc : Nat) :
    runDoneListeners (l1 ++ l2) dd cc =
      match runDoneListeners l1 dd cc with
      | (dd1, cc1, none) => runDoneListeners l2 dd1 cc1
      | (dd1, cc1, some e) => (dd1, cc1, some e) := by
  induction l1 generalizing dd cc with
  | nil => simp [runDoneListeners]
  | cons e rest ih =>
      cases e with
      | cancel => simp [runDoneListeners, ih]
      | user f =>
          simp only [List.cons_append, runDoneListeners]
          rcases f dd with ⟨dd1, er⟩
          cases er <;> simp [ih]

theorem runDoneListeners_log (ids : List Nat) (dd : DuskData) (cc : Nat) :
    runDoneListeners (ids.map logDoneEntry) dd cc =
      ({ dd with log := dd.log ++ ids }, cc, none) := by
  induction ids generalizing dd with
  | nil => simp [runDoneListeners]
  | cons i rest ih => simp [runDoneListeners, logDoneEntry, ih]

theorem runErrorListeners_append (cur : Nat) (l1 l2 : List ErrorListener) (dd : DuskData) :
    runErrorListeners cur (l1 ++ l2) dd =
      match runErrorListeners cur l1 dd with
      | (dd1, none) => runErrorListeners cur l2 dd1
      | (dd1, some e) => (dd1, some e) := by
  induction l1 generalizing dd with
  | nil => simp [runErrorListeners]
  | cons ln rest ih =>
      simp only [List.cons_append, runErrorListeners]
      rcases ln cur dd with ⟨dd1, er⟩
      cases er <;> simp [ih]

theorem runErrorListeners_log (cur : Nat) (ids : List Nat) (dd : DuskData) :
    runErrorListeners cur (ids.map logErrListener) dd =
      ({ dd with log := dd.log ++ ids }, none) := by
  induction ids generalizing dd with
  | nil => simp [runErrorListeners]
  | cons i rest ih => simp [runErrorListeners, logErrListener, ih]

theorem runErrorListeners_recv (cur : Nat) (n : Nat) (dd : DuskData) :
    runErrorListeners cur (List.replicate n recvErrListener) dd =
      ({ dd with log := dd.log ++ List.replicate n cur }, none) := by
  induction n generalizing dd with
  | zero => simp [runErrorListeners]
  | succ n ih =>
      simp [List.replicate_succ, runErrorListeners, recvErrListener, ih,
        List.replicate_succ']

theorem runRequestEvents_append_none (t : Nat) (l1 l2 : List RequestEvent)
    (dd dd1 : DuskData) (h : runRequestEvents t l1 dd = (dd1, none)) :
    runRequestEvents t (l1 ++ l2) dd = runRequestEvents t l2 dd1 := by
  rw [runRequestEvents_append, h]

theorem runResponseEvents_append_none (t : Nat) (l1 l2 : List ResponseEvent)
    (dd dd1 : DuskData) (h : runResponseEvents t l1 dd = (dd1, none)) :
    runResponseEvents t (l1 ++ l2) dd = runResponseEvents t l2 dd1 := by
  rw [runResponseEvents_append, h]

theorem runDoneListeners_append_none (l1 l2 : List DoneEntry)
    (dd dd1 : DuskData) (cc cc1 : Nat) (h : runDoneListeners l1 dd cc = (dd1, cc1, none)) :
    runDoneListeners (l1 ++ l2) dd cc = runDoneListeners l2 dd1 cc1 := by
  rw [runDoneListeners_append, h]

theorem runErrorListeners_append_none (cur : Nat) (l1 l2 : List ErrorListener)
    (dd dd1 : DuskData) (h : runErrorListeners cur l1 dd = (dd1, none)) :
    runErrorListeners cur (l1 ++ l2) dd = runErrorListeners cur l2 dd1 := by
  rw [runErrorListeners_append, h]

theorem runRequestEvents_log3 (t : Nat) (a b c : List Nat) (dd : DuskData) :
    runRequestEvents t (a.map (logReqEvent t) ++ (b.map (logReqEvent t) ++ c.map (logReqEvent t))) dd
      = ({ dd with log := dd.log ++ (a ++ (b ++ c)) }, none) := by
  rw [runRequestEvents_append_none t _ _ dd _ (runRequestEvents_log t a dd),
     runRequestEvents_append_none t _ _ _ _ (runRequestEvents_log t b _),
     runRequestEvents_log]
  simp [List.append_assoc]

theorem runResponseEvents_log3 (t : Nat) (a b c : List Nat) (dd : DuskData) :
    runResponseEvents t (a.map (logRespEvent t) ++ (b.map (logRespEvent t) ++ c.map (logRespEvent t))) dd
      = ({ dd with log := dd.log ++ (a ++ (b ++ c)) }, none) := by
  rw [runResponseEvents_append_none t _ _ dd _ (runResponseEvents_log t a dd),
     runResponseEvents_append_none t _ _ _ _ (runResponseEvents_log t b _),
     runResponseEvents_log]
  simp [List.append_assoc]

theorem runDoneListeners_log3 (a b c : List Nat) (dd : DuskData) (cc : Nat) :
    runDoneListeners (a.map logDoneEntry ++ (b.map logDoneEntry ++ c.map logDoneEntry)) dd cc
      = ({ dd with log := dd.log ++ (a ++ (b ++ c)) }, cc, none) := by
  rw [runDoneListeners_append_none _ _ dd _ cc _ (runDoneListeners_log a dd cc),
     runDoneListeners_append_none _ _ _ _ _ _ (runDoneListeners_log b _ cc),
     runDoneListeners_log]
  simp [List.append_assoc]

/-! ### Registration at the three scopes -/

theorem foldl_AddRequestListener (t : Nat) (ids : List Nat) (d : Dusk) :
    ids.foldl (fun d i => d.AddRequestListener (logReqListener i) t) d =
      { d with requestEvents := d.requestEvents ++ ids.map (logReqEvent t) } := by
  induction ids generalizing d with
  | nil => simp
  | cons i rest ih =>
      rw [List.foldl_cons, ih]
      simp [Dusk.AddRequestListener, Dusk.addRequestEvent, logReqEvent]

theorem foldl_AddResponseListener (t : Nat) (ids : List Nat) (d : Dusk) :
    ids.foldl (fun d i => d.AddResponseListener (logRespListener i) t) d =
      { d with responseEvents := d.responseEvents ++ ids.map (logRespEvent t) } := by
  induction ids generalizing d with
  | nil => simp
  | cons i rest ih =>
      rw [List.foldl_cons, ih]
      simp [Dusk.AddResponseListener, Dusk.addResponseEvent, logRespEvent]

theorem foldl_AddDoneListener (ids : List Nat) (d : Dusk) :
    ids.foldl (fun d i => d.AddDoneListener [logDoneEntry i]) d =
      { d with doneListeners := d.doneListeners ++ ids.map logDoneEntry } := by
  induction ids generalizing d with
  | nil => simp
  | cons i rest ih =>
      rw [List.foldl_cons, ih]
      simp [Dusk.AddDoneListener]

/-- A `Dusk` with logging request, response and done listeners
registered at all three scopes through the source registration path:
global lists seeded into `newDusk`, instance lists attached by
`Instance.init`, call-scoped listeners added one at a time through the
`Add*Listener` builder methods. -/
def threeScopeDusk (t : Nat) (gr gp gd ir ip idn cr cp cd : List Nat) (u : String) : Dusk :=
  let g : GlobalRegistry :=
    { requestEvents := gr.map (logReqEvent t)
      responseEvents := gp.map (logRespEvent t)
      doneListeners := gd.map logDoneEntry }
  let ins : Instance :=
    { requestEvents := ir.map (logReqEvent t)
      responseEvent := ip.map (logRespEvent t)
      doneListeners := idn.map logDoneEntry }
  let d0 := ins.Get g u
  let d1 := cr.foldl (fun d i => d.AddRequestListener (logReqListener i) t) d0
  let d2 := cp.foldl (fun d i => d.AddResponseListener (logRespListener i) t) d1
  cd.foldl (fun d i => d.AddDoneListener [logDoneEntry i]) d2

theorem threeScopeDusk_eq (t : Nat) (gr gp gd ir ip idn cr cp cd : List Nat) (u : String) :
    threeScopeDusk t gr gp gd ir ip idn cr cp cd u =
      { url := u, method := "GET"
        requestEvents := gr.map (logReqEvent t) ++ ir.map (logReqEvent t) ++ cr.map (logReqEvent t)
        responseEvents := gp.map (logRespEvent t) ++ ip.map (logRespEvent t) ++ cp.map (logRespEvent t)
        doneListeners := gd.map logDoneEntry ++ idn.map logDoneEntry ++ cd.map logDoneEntry } := by
  simp only [threeScopeDusk]
  rw [foldl_AddRequestListener, foldl_AddResponseListener, foldl_AddDoneListener]
  simp [Instance.Get, Instance.init, Get, newDusk,
    Dusk.addRequestEvent, Dusk.addResponseEvent, Dusk.AddErrorListener, Dusk.AddDoneListener,
    List.append_assoc]

/-- C1.  For listeners registered at all three scopes for the same event
and phase, each emit fires all call-scoped listeners first, then all
instance-scoped ones, then all global-scoped ones (within one scope the
backward loop fires them in reverse insertion order, which the claim
leaves unconstrained). -/
theorem claim_C1_scope_order (t : Nat) (gr gp gd ir ip idn cr cp cd : List Nat) (u : String) :
    (((threeScopeDusk t gr gp gd ir ip idn cr cp cd u).EmitRequest t).1.data.log
        = cr.reverse ++ ir.reverse ++ gr.reverse)
    ∧ (((threeScopeDusk t gr gp gd ir ip idn cr cp cd u).EmitResponse t).1.data.log
        = cp.reverse ++ ip.reverse ++ gp.reverse)
    ∧ (((threeScopeDusk t gr gp gd ir ip idn cr cp cd u).EmitDone).1.data.log
        = cd.reverse ++ idn.reverse ++ gd.reverse) := by
  rw [threeScopeDusk_eq]
  refine ⟨?_, ?_, ?_⟩
  · simp [Dusk.EmitRequest, List.reverse_append, ← List.map_reverse, runRequestEvents_log3,
      List.append_assoc]
  · simp [Dusk.EmitResponse, List.reverse_append, ← List.map_reverse, runResponseEvents_log3,
      List.append_assoc]
  · simp [Dusk.EmitDone, List.reverse_append, ← List.map_reverse, runDoneListeners_log3,
      List.append_assoc]

theorem foldl_AddErrorListener (ids : List Nat) (d : Dusk) :
    ids.foldl (fun d i => d.AddErrorListener [logErrListener i]) d =
      { d with errorListeners := d.errorListeners ++ ids.map logErrListener } := by
  induction ids generalizing d with
  | nil => simp
  | cons i rest ih =>
      rw [List.foldl_cons, ih]
      simp [Dusk.AddErrorListener]

/-- C7 counterexample.  Two listeners registered one after the other at
the same (call) scope for the same kind and phase do NOT fire in
insertion order for the request, response and done events: the
`for i := size - 1; i >= 0; i--` loops fire the later registration
first, so the observed log is `[2, 1]`, not `[1, 2]`. -/
theorem claim_C7_counterexample :
    (((((Get {} "/x").AddRequestListener (logReqListener 1) EventTypeBefore).AddRequestListener
          (logReqListener 2) EventTypeBefore).EmitRequest EventTypeBefore).1.data.log = [2, 1])
    ∧ ((((((Get {} "/x").AddResponseListener (logRespListener 1) EventTypeBefore).AddResponseListener
          (logRespListener 2) EventTypeBefore).EmitResponse EventTypeBefore)).1.data.log = [2, 1])
    ∧ ((((Get {} "/x").AddDoneListener [logDoneEntry 1]).AddDoneListener
          [logDoneEntry 2]).EmitDone.1.data.log = [2, 1])
    ∧ ([2, 1] : List Nat) ≠ [1, 2] := by
  refine ⟨by decide, by decide, by decide, by decide⟩

/-- C7 as amended.  Within one scope, request, response and done
listeners fire in reverse insertion order (the emit loops walk the
listener slice backwards); error listeners are the exception: their loop
walks forwards, so they do fire in insertion order. -/
theorem claim_C7_amended (t e0 : Nat) (ids : List Nat) (u : String) :
    (((ids.foldl (fun d i => d.AddRequestListener (logReqListener i) t)
        (Get {} u)).EmitRequest t).1.data.log = ids.reverse)
    ∧ (((ids.foldl (fun d i => d.AddResponseListener (logRespListener i) t)
        (Get {} u)).EmitResponse t).1.data.log = ids.reverse)
    ∧ (((ids.foldl (fun d i => d.AddDoneListener [logDoneEntry i])
        (Get {} u)).EmitDone).1.data.log = ids.reverse)
    ∧ (((ids.foldl (fun d i => d.AddErrorListener [logErrListener i])
        (Get {} u)).EmitError e0).1.data.log = ids) := by
  refine ⟨?_, ?_, ?_, ?_⟩
  · rw [foldl_AddRequestListener]
    simp [Dusk.EmitRequest, Get, newDusk, Dusk.addRequestEvent, Dusk.addResponseEvent,
      Dusk.AddErrorListener, Dusk.AddDoneListener, ← List.map_reverse, runRequestEvents_log]
  · rw [foldl_AddResponseListener]
    simp [Dusk.EmitResponse, Get, newDusk, Dusk.addRequestEvent, Dusk.addResponseEvent,
      Dusk.AddErrorListener, Dusk.AddDoneListener, ← List.map_reverse, runResponseEvents_log]
  · rw [foldl_AddDoneListener]
    simp [Dusk.EmitDone, Get, newDusk, Dusk.addRequestEvent, Dusk.addResponseEvent,
      Dusk.AddErrorListener, Dusk.AddDoneListener, ← List.map_reverse, runDoneListeners_log]
  · rw [foldl_AddErrorListener]
    simp [Dusk.EmitError, Get, newDusk, Dusk.addRequestEvent, Dusk.addResponseEvent,
      Dusk.AddErrorListener, Dusk.AddDoneListener, runErrorListeners_log]

/-- An error listener that logs `id` and returns the error `e`. -/
def logErrThen (id e : Nat) : ErrorListener :=
  fun _ dd => ({ dd with log := dd.log ++ [id] }, some e)

theorem runErrorListeners_log3 (cur : Nat) (a b c : List Nat) (dd : DuskData) :
    runErrorListeners cur (a.map logErrListener ++ (b.map logErrListener ++ c.map logErrListener)) dd
      = ({ dd with log := dd.log ++ (a ++ (b ++ c)) }, none) := by
  rw [runErrorListeners_append_none cur _ _ dd _ (runErrorListeners_log cur a dd),
     runErrorListeners_append_none cur _ _ _ _ (runErrorListeners_log cur b _),
     runErrorListeners_log]
  simp [List.append_assoc]

theorem runErrorListeners_const_head (cur e : Nat) (rest : List ErrorListener) (dd : DuskData) :
    runErrorListeners cur (constErrListener e :: rest) dd = (dd, some e) := by
  simp [runErrorListeners, constErrListener]

theorem runErrorListeners_log_then_const (cur e : Nat) (a : List Nat)
    (rest : List ErrorListener) (dd : DuskData) :
    runErrorListeners cur (a.map logErrListener ++ (constErrListener e :: rest)) dd
      = ({ dd with log := dd.log ++ a }, some e) := by
  rw [runErrorListeners_append_none cur _ _ dd _ (runErrorListeners_log cur a dd),
     runErrorListeners_const_head]

theorem Get_eq (gre : GlobalRegistry) (u : String) :
    Get gre u = { url := u, method := "GET", requestEvents := gre.requestEvents,
                  responseEvents := gre.responseEvents, errorListeners := gre.errorListeners,
                  doneListeners := gre.doneListeners } := by
  simp [Get, newDusk, Dusk.addRequestEvent, Dusk.addResponseEvent,
    Dusk.AddErrorListener, Dusk.AddDoneListener]

/-- A `Dusk` whose error listeners are registered at all three scopes
through the source registration path, dispatched against a transport
that fails with error `te`. -/
def threeScopeErrDusk (g i c : List Nat) (u : String) (te : Nat) : Dusk :=
  let gr : GlobalRegistry := { errorListeners := g.map logErrListener }
  let ins : Instance := { errorListeners := i.map logErrListener }
  let d0 := ins.Get gr u
  let d1 := c.foldl (fun d j => d.AddErrorListener [logErrListener j]) d0
  { d1 with client := fun _ => Sum.inr te }

theorem threeScopeErrDusk_eq (g i c : List Nat) (u : String) (te : Nat) :
    threeScopeErrDusk g i c u te =
      { url := u, method := "GET",
        errorListeners := g.map logErrListener ++ (i.map logErrListener ++ c.map logErrListener),
        client := fun _ => Sum.inr te } := by
  simp only [threeScopeErrDusk]
  rw [foldl_AddErrorListener]
  simp [Instance.Get, Instance.init, Get, newDusk, Dusk.addRequestEvent, Dusk.addResponseEvent,
    Dusk.AddErrorListener, Dusk.AddDoneListener, List.append_assoc]

/-- C3 counterexample.  With error listeners at global scope (id 10),
instance scope (id 15) and call scope (id 20) and a failing transport,
`Do` fires them global-first (`[10, 15, 20]`), not call-first
(`[20, 15, 10]`); and an error listener that returns a non-nil error
(here id 1, error 7) terminates the chain, so the next error listener
(id 2) never receives the overwritten error — it never fires at all. -/
theorem claim_C3_counterexample :
    ((threeScopeErrDusk [10] [15] [20] "/x" 5).Do.1.data.log = [10, 15, 20])
    ∧ (([10, 15, 20] : List Nat) ≠ [20, 15, 10])
    ∧ (({ Get {} "/x" with client := fun _ => Sum.inr 5 }.AddErrorListener
          [logErrThen 1 7, logErrListener 2]).Do.1.data.log = [1])
    ∧ (({ Get {} "/x" with client := fun _ => Sum.inr 5 }.AddErrorListener
          [logErrThen 1 7, logErrListener 2]).Do.2.2.2 = some 7) := by
  refine ⟨by decide, by decide, by decide, by decide⟩

/-- C3 as amended.  When `Do` ends with a terminal error, the error
listeners fire in global, then instance, then call scope order
(insertion order within a scope), each receiving the original terminal
error unchanged; the first listener to return a non-nil error ends the
chain at once — the remaining error listeners never fire — and its
error replaces the terminal error returned to the caller. -/
theorem claim_C3_amended (g i c pids qids : List Nat) (te e2 n : Nat) (u : String) :
    ((threeScopeErrDusk g i c u te).Do.1.data.log = g ++ (i ++ c)
      ∧ (threeScopeErrDusk g i c u te).Do.2.2.2 = some te)
    ∧ (({ Get {} u with client := fun _ => Sum.inr te }.AddErrorListener
          (List.replicate n recvErrListener)).Do.1.data.log = List.replicate n te)
    ∧ (({ Get {} u with client := fun _ => Sum.inr te }.AddErrorListener
          (pids.map logErrListener ++ (constErrListener e2 :: qids.map logErrListener))).Do.1.data.log = pids
      ∧ ({ Get {} u with client := fun _ => Sum.inr te }.AddErrorListener
          (pids.map logErrListener ++ (constErrListener e2 :: qids.map logErrListener))).Do.2.2.2 = some e2) := by
  refine ⟨⟨?_, ?_⟩, ?_, ?_, ?_⟩
  · rw [threeScopeErrDusk_eq]
    simp [Dusk.Do, Dusk.newRequest, Dusk.doCore, Dusk.GetURL, substParams,
      Dusk.EmitRequest, runRequestEvents, Dusk.doneFinal, Dusk.applyError, Dusk.EmitError, Dusk.EmitDone,
      runDoneListeners, runErrorListeners_log3]
  · rw [threeScopeErrDusk_eq]
    simp [Dusk.Do, Dusk.newRequest, Dusk.doCore, Dusk.GetURL, substParams,
      Dusk.EmitRequest, runRequestEvents, Dusk.doneFinal, Dusk.applyError, Dusk.EmitError, Dusk.EmitDone,
      runDoneListeners, runErrorListeners_log3]
  · rw [Get_eq]
    simp [Dusk.AddErrorListener, Dusk.Do, Dusk.newRequest, Dusk.doCore, Dusk.GetURL,
      substParams, Dusk.EmitRequest, runRequestEvents, Dusk.doneFinal, Dusk.applyError,
      Dusk.EmitError, Dusk.EmitDone, runDoneListeners, runErrorListeners_recv]
  · rw [Get_eq]
    simp [Dusk.AddErrorListener, Dusk.Do, Dusk.newRequest, Dusk.doCore, Dusk.GetURL,
      substParams, Dusk.EmitRequest, runRequestEvents, Dusk.doneFinal, Dusk.applyError,
      Dusk.EmitError, Dusk.EmitDone, runDoneListeners, runErrorListeners_log_then_const]
  · rw [Get_eq]
    simp [Dusk.AddErrorListener, Dusk.Do, Dusk.newRequest, Dusk.doCore, Dusk.GetURL,
      substParams, Dusk.EmitRequest, runRequestEvents, Dusk.doneFinal, Dusk.applyError,
      Dusk.EmitError, Dusk.EmitDone, runDoneListeners, runErrorListeners_log_then_const]

theorem runDoneListeners_err_head (e : Nat) (rest : List DoneEntry) (dd : DuskData) (cc : Nat) :
    runDoneListeners (errDoneEntry e :: rest) dd cc = (dd, cc, some e) := by
  simp [runDoneListeners, errDoneEntry]

/-- C2 counterexample.  Two done listeners are registered (id 1 first,
then one returning error 9); the `Do` call completes successfully, yet
listener 1 never fires: the backward `EmitDone` loop runs the
later-registered erroring listener first and its non-nil return aborts
the loop, so the log stays empty while the returned error is 9. -/
theorem claim_C2_counterexample :
    (({ Get {} "/x" with client := fun _ => Sum.inl ⟨200, [9]⟩ }.AddDoneListener
        [logDoneEntry 1, errDoneEntry 9]).Do.1.data.log = [])
    ∧ (({ Get {} "/x" with client := fun _ => Sum.inl ⟨200, [9]⟩ }.AddDoneListener
        [logDoneEntry 1, errDoneEntry 9]).Do.2.2.2 = some 9) := by
  exact ⟨by decide, by decide⟩

/-- C2 as amended.  On every `Do` path the done listeners fire after the
error listeners, in reverse registration order, each at most once; when
none of them returns an error they all fire exactly once, on success and
on failure alike; the first done listener to return a non-nil error
stops the remaining done listeners and its error replaces the final
error returned to the caller. -/
theorem claim_C2_amended (eids dids : List Nat) (te e : Nat) (r : Resp) (u : String) :
    ((({ Get {} u with client := fun _ => Sum.inr te }.AddErrorListener
          (eids.map logErrListener)).AddDoneListener (dids.map logDoneEntry)).Do.1.data.log
        = eids ++ dids.reverse
      ∧ (({ Get {} u with client := fun _ => Sum.inr te }.AddErrorListener
          (eids.map logErrListener)).AddDoneListener (dids.map logDoneEntry)).Do.2.2.2 = some te)
    ∧ (({ Get {} u with client := fun _ => Sum.inl r }.AddDoneListener
          (dids.map logDoneEntry)).Do.1.data.log = dids.reverse
      ∧ ({ Get {} u with client := fun _ => Sum.inl r }.AddDoneListener
          (dids.map logDoneEntry)).Do.2.2.2 = none)
    ∧ (({ Get {} u with client := fun _ => Sum.inl r }.AddDoneListener
          (dids.map logDoneEntry ++ [errDoneEntry e])).Do.1.data.log = []
      ∧ ({ Get {} u with client := fun _ => Sum.inl r }.AddDoneListener
          (dids.map logDoneEntry ++ [errDoneEntry e])).Do.2.2.2 = some e) := by
  refine ⟨⟨?_, ?_⟩, ⟨?_, ?_⟩, ⟨?_, ?_⟩⟩ <;>
    · rw [Get_eq]
      simp [Dusk.AddErrorListener, Dusk.AddDoneListener, Dusk.Do, Dusk.newRequest,
        Dusk.doCore, Dusk.GetURL, substParams, Dusk.EmitRequest, runRequestEvents,
        Dusk.EmitResponse, runResponseEvents, Dusk.doneFinal, Dusk.applyError, Dusk.EmitError,
        Dusk.EmitDone, runErrorListeners_log, ← List.map_reverse, List.reverse_append,
        runDoneListeners_log, runDoneListeners_err_head, runErrorListeners]

/-! ### The auto-registered timeout release (claim C4) -/

theorem EmitRequest_preserves (d : Dusk) (t : Nat) :
    ((d.EmitRequest t).1.cancelCount = d.cancelCount)
    ∧ ((d.EmitRequest t).1.doneListeners = d.doneListeners) := by
  simp [Dusk.EmitRequest]

theorem EmitResponse_preserves (d : Dusk) (t : Nat) :
    ((d.EmitResponse t).1.cancelCount = d.cancelCount)
    ∧ ((d.EmitResponse t).1.doneListeners = d.doneListeners) := by
  simp [Dusk.EmitResponse]

theorem EmitError_preserves (d : Dusk) (cur : Nat) :
    ((d.EmitError cur).1.cancelCount = d.cancelCount)
    ∧ ((d.EmitError cur).1.doneListeners = d.doneListeners) := by
  simp [Dusk.EmitError]

theorem doCore_preserves (d : Dusk) :
    ((d.doCore).1.cancelCount = d.cancelCount)
    ∧ ((d.doCore).1.doneListeners = d.doneListeners) := by
  unfold Dusk.doCore
  rcases hq : d.EmitRequest EventTypeBefore with ⟨d1, e1⟩
  have p1 := EmitRequest_preserves d EventTypeBefore
  rw [hq] at p1
  dsimp only
  have p2 : (if d1.enabledTrace then { d1 with htSet := true } else d1).cancelCount = d.cancelCount
      ∧ (if d1.enabledTrace then { d1 with htSet := true } else d1).doneListeners
        = d.doneListeners := by
    split <;> exact ⟨p1.1, p1.2⟩
  set d2 := if d1.enabledTrace then { d1 with htSet := true } else d1 with hd2
  cases e1 with
  | some e => exact p2
  | none =>
      dsimp only
      cases hcl : d2.client d.data.request with
      | inr e => exact p2
      | inl resp =>
          dsimp only
          rcases hq2 : ({ d2 with sendCount := d2.sendCount + 1 } : Dusk).EmitRequest
              EventTypeAfter with ⟨d4, e2⟩
          have p4 := EmitRequest_preserves ({ d2 with sendCount := d2.sendCount + 1 } : Dusk)
              EventTypeAfter
          rw [hq2] at p4
          dsimp only
          have p4' : d4.cancelCount = d.cancelCount ∧ d4.doneListeners = d.doneListeners :=
            ⟨p4.1.trans p2.1, p4.2.trans p2.2⟩
          cases e2 with
          | some e => exact p4'
          | none =>
              dsimp only
              rcases hq3 : ({ d4 with data := { d4.data with response := some resp } } : Dusk).EmitResponse
                  EventTypeBefore with ⟨d6, e3⟩
              have p6 := EmitResponse_preserves
                  ({ d4 with data := { d4.data with response := some resp } } : Dusk) EventTypeBefore
              rw [hq3] at p6
              dsimp only
              have p6' : d6.cancelCount = d.cancelCount ∧ d6.doneListeners = d.doneListeners :=
                ⟨p6.1.trans p4'.1, p6.2.trans p4'.2⟩
              cases e3 with
              | some e => exact p6'
              | none =>
                  dsimp only
                  split
                  · exact p6'
                  · have p7 := EmitResponse_preserves
                        ({ d6 with
                            bodyReadCount := d6.bodyReadCount + 1
                            data := { d6.data with
                              body := some ((d6.data.response.map Resp.stream).getD []) } } : Dusk)
                        EventTypeAfter
                    exact ⟨p7.1.trans p6'.1, p7.2.trans p6'.2⟩

/-- Caller-registered done listeners cannot invoke the timeout `cancel`
closure: running a list of `user` entries leaves the cancel counter
unchanged, whether or not one of them aborts the loop with an error. -/
theorem runDoneListeners_user_cc (l : List DoneEntry)
    (h : ∀ e ∈ l, e.isUser = true) (dd : DuskData) (cc : Nat) :
    (runDoneListeners l dd cc).2.1 = cc := by
  induction l generalizing dd with
  | nil => simp [runDoneListeners]
  | cons e rest ih =>
      cases e with
      | cancel => simpa [DoneEntry.isUser] using h DoneEntry.cancel (by simp)
      | user f =>
          simp only [runDoneListeners]
          rcases f dd with ⟨dd1, er⟩
          cases er with
          | none => exact ih (fun e he => h e (by simp [he])) dd1
          | some e2 => rfl

theorem applyError_preserves (d : Dusk) (err : Option Nat) :
    ((d.applyError err).1.cancelCount = d.cancelCount)
    ∧ ((d.applyError err).1.doneListeners = d.doneListeners) := by
  cases err with
  | none => simp [Dusk.applyError]
  | some e =>
      rcases hX : runErrorListeners e d.errorListeners d.data with ⟨dd, ne⟩
      cases ne <;> simp [Dusk.applyError, Dusk.EmitError, hX]

/-- The backward `EmitDone` loop over user entries followed by the
auto-registered `cancel` entry runs `cancel` first, exactly once. -/
theorem EmitDone_cancelCount (dx : Dusk) (L : List DoneEntry)
    (hL : dx.doneListeners = L ++ [DoneEntry.cancel])
    (hu : ∀ e ∈ L, e.isUser = true) :
    ((dx.EmitDone).1).cancelCount = dx.cancelCount + 1 := by
  have hx : (runDoneListeners dx.doneListeners.reverse dx.data dx.cancelCount).2.1
      = dx.cancelCount + 1 := by
    rw [hL]
    simp only [List.reverse_append, List.reverse_cons, List.reverse_nil, List.nil_append,
      List.singleton_append, runDoneListeners]
    exact runDoneListeners_user_cc L.reverse
      (fun e he => hu e (List.mem_reverse.mp he)) dx.data (dx.cancelCount + 1)
  rcases hr : runDoneListeners dx.doneListeners.reverse dx.data dx.cancelCount with ⟨dd, cc, e⟩
  rw [hr] at hx
  unfold Dusk.EmitDone
  rw [hr]
  simpa using hx

/-- When the done list is user entries followed by the auto-registered
`cancel` entry, the whole `done` closure bumps the cancel counter by
exactly one, whatever the terminal error and the listener results. -/
theorem doneFinal_cancelCount (dx : Dusk) (err : Option Nat) (L : List DoneEntry)
    (hL : dx.doneListeners = L ++ [DoneEntry.cancel])
    (hu : ∀ e ∈ L, e.isUser = true) :
    ((dx.doneFinal err).1).cancelCount = dx.cancelCount + 1 := by
  rcases hA : dx.applyError err with ⟨d1, err1⟩
  have h1c : d1.cancelCount = dx.cancelCount := by
    have := (applyError_preserves dx err).1
    rw [hA] at this
    exact this
  have h1L : d1.doneListeners = L ++ [DoneEntry.cancel] := by
    have := (applyError_preserves dx err).2
    rw [hA] at this
    rw [this, hL]
  rcases hE : d1.EmitDone with ⟨d2, e2⟩
  have h2 : d2.cancelCount = dx.cancelCount + 1 := by
    have := EmitDone_cancelCount d1 L h1L hu
    rw [hE] at this
    rw [this, h1c]
  unfold Dusk.doneFinal
  rw [hA]
  dsimp only
  rw [hE]
  cases e2 <;> simpa using h2

/-- C4.  For a request with a non-zero timeout whose construction
succeeds, the auto-registered cancellation release fires exactly once
per `Do` call: the `cancel` entry is appended last by `newRequest`, so
the backward `EmitDone` loop runs it first, before any user done
listener can abort the loop, and `Do` invokes its `done` closure exactly
once on every path (early listener error, transport failure, and
success alike). -/
theorem claim_C4_cancel_once (d : Dusk)
    (ht : d.timeout ≠ 0) (hb : d.buildErr = none) (hc : d.cancelCount = 0)
    (hu : ∀ e ∈ d.doneListeners, e.isUser = true) :
    (d.Do).1.cancelCount = 1 := by
  unfold Dusk.Do Dusk.newRequest
  rw [hb]
  simp only [if_pos ht]
  split
  all_goals
    dsimp only
    rw [doneFinal_cancelCount _ _ d.doneListeners ((doCore_preserves _).2) hu,
       (doCore_preserves _).1]
    simpa using hc

/-- A concrete traced request with timeout 5, a succeeding transport and
two user done listeners, one of which returns an error. -/
def duskC4 : Dusk :=
  { url := "/x", timeout := 5, client := fun _ => Sum.inl ⟨200, []⟩,
    doneListeners := [logDoneEntry 3, errDoneEntry 4] }

/-- Witness for C4 at `duskC4`. -/
theorem claim_C4_cancel_once_witness :
    (duskC4.timeout ≠ 0 ∧ duskC4.buildErr = none ∧ duskC4.cancelCount = 0
      ∧ (∀ e ∈ duskC4.doneListeners, e.isUser = true))
    ∧ (duskC4.Do).1.cancelCount = 1 :=
  ⟨⟨by decide, rfl, rfl, by decide⟩,
   claim_C4_cancel_once duskC4 (by decide) rfl rfl (by decide)⟩

/-! ### Early abort by a Before-phase request listener (claim C5) -/

theorem EmitRequest_ctl (d : Dusk) (t : Nat) :
    ((d.EmitRequest t).1).sendCount = d.sendCount
    ∧ ((d.EmitRequest t).1).errorListeners = d.errorListeners
    ∧ ((d.EmitRequest t).1).doneListeners = d.doneListeners := by
  simp [Dusk.EmitRequest]

theorem EmitError_sendCount (d : Dusk) (cur : Nat) :
    ((d.EmitError cur).1).sendCount = d.sendCount := by
  simp [Dusk.EmitError]

theorem EmitDone_sendCount (d : Dusk) :
    ((d.EmitDone).1).sendCount = d.sendCount := by
  simp [Dusk.EmitDone]

/-- The `Dusk` state entering `do` when request construction succeeds:
the request is rendered from `GetURL`, and a non-zero timeout has
appended the `cancel` release (this spells out the `d.Request = req`
assignment of `Do` for a successful `newRequest`). -/
def Dusk.afterBuild (d : Dusk) : Dusk :=
  let d1 :=
    if d.timeout ≠ 0 then
      { d with doneListeners := d.doneListeners ++ [DoneEntry.cancel] }
    else d
  { d1 with data := { d1.data with request := some ⟨d.GetURL⟩ } }

/-- If the Before-phase request emit aborts with an error, `do` returns
that error without invoking the transport. -/
theorem doCore_before_err (d : Dusk) (e : Nat)
    (h : (d.EmitRequest EventTypeBefore).2 = some e) :
    ((d.doCore).2 = some e)
    ∧ ((d.doCore).1.sendCount = d.sendCount)
    ∧ ((d.doCore).1.errorListeners = d.errorListeners)
    ∧ ((d.doCore).1.doneListeners = d.doneListeners) := by
  unfold Dusk.doCore
  rcases hq : d.EmitRequest EventTypeBefore with ⟨d1, e1⟩
  have hctl := EmitRequest_ctl d EventTypeBefore
  rw [hq] at hctl h
  obtain rfl : e1 = some e := by simpa using h
  dsimp only
  refine ⟨?_, ?_, ?_, ?_⟩ <;> first | rfl | (split <;> simp_all)

theorem runDoneListeners_all_cancel (l : List DoneEntry)
    (h : ∀ en ∈ l, en = DoneEntry.cancel) (dd : DuskData) (cc : Nat) :
    runDoneListeners l dd cc = (dd, cc + l.length, none) := by
  induction l generalizing cc with
  | nil => simp [runDoneListeners]
  | cons en rest ih =>
      have hhd : en = DoneEntry.cancel := h en (by simp)
      subst hhd
      rw [runDoneListeners, ih (fun x hx => h x (by simp [hx]))]
      simp [Nat.add_assoc, Nat.add_comm 1]

/-- With no error listeners and only the auto-registered `cancel` in the
done list, the `done` closure leaves the terminal error, the counters
and the log untouched. -/
theorem doneFinal_result (dx : Dusk) (err : Option Nat)
    (he : dx.errorListeners = [])
    (hd : ∀ en ∈ dx.doneListeners, en = DoneEntry.cancel) :
    ((dx.doneFinal err).2 = err)
    ∧ ((dx.doneFinal err).1.sendCount = dx.sendCount)
    ∧ ((dx.doneFinal err).1.bodyReadCount = dx.bodyReadCount)
    ∧ ((dx.doneFinal err).1.data.log = dx.data.log) := by
  have hres1 : (dx.applyError err).2 = err := by
    cases err <;> simp [Dusk.applyError, Dusk.EmitError, he, runErrorListeners]
  have hres2 : (dx.applyError err).1.sendCount = dx.sendCount := by
    cases err <;> simp [Dusk.applyError, Dusk.EmitError, he, runErrorListeners]
  have hres3 : (dx.applyError err).1.doneListeners = dx.doneListeners := by
    cases err <;> simp [Dusk.applyError, Dusk.EmitError, he, runErrorListeners]
  have hres4 : (dx.applyError err).1.bodyReadCount = dx.bodyReadCount := by
    cases err <;> simp [Dusk.applyError, Dusk.EmitError, he, runErrorListeners]
  have hres5 : (dx.applyError err).1.data.log = dx.data.log := by
    cases err <;> simp [Dusk.applyError, Dusk.EmitError, he, runErrorListeners]
  rcases hA : dx.applyError err with ⟨d1, err1⟩
  rw [hA] at hres1 hres2 hres3 hres4 hres5
  dsimp only at hres1 hres2 hres3 hres4 hres5
  subst hres1
  unfold Dusk.doneFinal
  rw [hA]
  dsimp only
  unfold Dusk.EmitDone
  rw [runDoneListeners_all_cancel d1.doneListeners.reverse
      (fun en hen => hd en (by rw [← hres3]; exact List.mem_reverse.mp hen))
      d1.data d1.cancelCount]
  cases err1 <;> simp [hres2, hres4, hres5]

/-- `Do` in terms of `afterBuild`: when request construction succeeds,
`Do` is `do` on the built state followed by the `done` closure, with the
response and body captured before `done` runs on the success path. -/
theorem Do_result (d : Dusk) (hb : d.buildErr = none) :
    d.Do =
      (let r := (d.afterBuild).doCore
       match r.2 with
       | some er =>
           ((r.1.doneFinal (some er)).1, (none, none, (r.1.doneFinal (some er)).2))
       | none =>
           ((r.1.doneFinal none).1,
             (r.1.data.response, r.1.data.body, (r.1.doneFinal none).2))) := by
  unfold Dusk.Do Dusk.newRequest Dusk.afterBuild
  by_cases htm : d.timeout ≠ 0
  · simp only [if_pos htm, hb]
  · simp only [if_neg htm, hb]

theorem afterBuild_ctl (d : Dusk) :
    ((d.afterBuild).errorListeners = d.errorListeners)
    ∧ ((d.afterBuild).sendCount = d.sendCount)
    ∧ ((d.afterBuild).bodyReadCount = d.bodyReadCount)
    ∧ ((d.afterBuild).requestEvents = d.requestEvents)
    ∧ ((d.afterBuild).responseEvents = d.responseEvents)
    ∧ ((d.afterBuild).client = d.client)
    ∧ ((d.afterBuild).data.response = d.data.response)
    ∧ ((d.afterBuild).data.body = d.data.body)
    ∧ ((d.afterBuild).data.log = d.data.log) := by
  unfold Dusk.afterBuild
  split <;> exact ⟨rfl, rfl, rfl, rfl, rfl, rfl, rfl, rfl, rfl⟩

theorem afterBuild_done_cancel (d : Dusk) (hdone : d.doneListeners = []) :
    ∀ en ∈ (d.afterBuild).doneListeners, en = DoneEntry.cancel := by
  unfold Dusk.afterBuild
  split <;> simp [hdone]

/-- C5.  If a Before-phase request listener aborts `Do` with error `e`
and neither error nor done listeners are registered, the transport is
never invoked (the send counter is unchanged) and `Do` returns exactly
`e`. -/
theorem claim_C5_before_abort (d : Dusk) (e : Nat)
    (hb : d.buildErr = none)
    (hbefore : ((d.afterBuild).EmitRequest EventTypeBefore).2 = some e)
    (herr : d.errorListeners = [])
    (hdone : d.doneListeners = []) :
    ((d.Do).2.2.2 = some e) ∧ ((d.Do).1.sendCount = d.sendCount) := by
  rw [Do_result d hb]
  obtain ⟨hce, hcs, hcel, hcdl⟩ := doCore_before_err (d.afterBuild) e hbefore
  rcases hdo : (d.afterBuild).doCore with ⟨d3, e3⟩
  rw [hdo] at hce hcs hcel hcdl
  dsimp only at hce hcs hcel hcdl
  subst hce
  dsimp only
  have hae : d3.errorListeners = [] := by rw [hcel, (afterBuild_ctl d).1, herr]
  have had : ∀ en ∈ d3.doneListeners, en = DoneEntry.cancel := by
    rw [hcdl]
    exact afterBuild_done_cancel d hdone
  have hres := doneFinal_result d3 (some e) hae had
  exact ⟨hres.1, by rw [hres.2.1, hcs, (afterBuild_ctl d).2.1]⟩

/-- A concrete request whose single Before-phase request listener
returns error 7, with a live transport that would answer 200. -/
def duskC5 : Dusk :=
  { url := "/x", client := fun _ => Sum.inl ⟨200, [1]⟩,
    requestEvents := [errReqEvent EventTypeBefore 7] }

/-- Witness for C5 at `duskC5`. -/
theorem claim_C5_before_abort_witness :
    (duskC5.buildErr = none
      ∧ ((duskC5.afterBuild).EmitRequest EventTypeBefore).2 = some 7
      ∧ duskC5.errorListeners = [] ∧ duskC5.doneListeners = [])
    ∧ ((duskC5.Do).2.2.2 = some 7 ∧ (duskC5.Do).1.sendCount = duskC5.sendCount) :=
  ⟨⟨rfl, by decide, rfl, rfl⟩,
   claim_C5_before_abort duskC5 7 rfl (by decide) rfl rfl⟩

/-! ### Pre-populated body short-circuit (claims C6 and C10) -/

theorem runResponseEvents_skip_after (ids : List Nat) (dd : DuskData) :
    runResponseEvents EventTypeBefore (ids.map (logRespEvent EventTypeAfter)) dd
      = (dd, none) := by
  induction ids with
  | nil => simp [runResponseEvents]
  | cons i rest ih =>
      simpa [runResponseEvents, logRespEvent, EventTypeAfter, EventTypeBefore] using ih

/-- Running `do` on a request with no request listeners, a Before-phase
response listener that pre-populates the body, trailing After-phase
logging listeners and a succeeding transport: the send happens once, the
body is the listener's slice, the default body read is skipped and the
After-phase listeners never fire (the log is untouched). -/
theorem doCore_body_preset (dx : Dusk) (bs : List Nat) (resp : Resp) (aft : List Nat)
    (hreq : dx.requestEvents = [])
    (hresp : dx.responseEvents
      = setBodyRespEvent EventTypeBefore bs :: aft.map (logRespEvent EventTypeAfter))
    (hcl : dx.client = fun _ => Sum.inl resp) :
    (dx.doCore.2 = none)
    ∧ (dx.doCore.1.data.response = some resp)
    ∧ (dx.doCore.1.data.body = some bs)
    ∧ (dx.doCore.1.data.log = dx.data.log)
    ∧ (dx.doCore.1.bodyReadCount = dx.bodyReadCount)
    ∧ (dx.doCore.1.errorListeners = dx.errorListeners)
    ∧ (dx.doCore.1.doneListeners = dx.doneListeners)
    ∧ (dx.doCore.1.sendCount = dx.sendCount + 1) := by
  cases htr : dx.enabledTrace <;>
    · unfold Dusk.doCore
      simp [hreq, hresp, hcl, htr, Dusk.EmitRequest, Dusk.EmitResponse,
        runRequestEvents, runResponseEvents_append, ← List.map_reverse,
        runResponseEvents_skip_after, runResponseEvents, setBodyRespEvent]

/-- C6.  A Before-phase response listener that writes the byte slice
`bs` into the context makes `Do` return the transport's response
(status untouched), exactly `bs` as the body, and a nil error, with the
default body-read step skipped. -/
theorem claim_C6_preset_body (d : Dusk) (bs : List Nat) (resp : Resp)
    (hb : d.buildErr = none)
    (hreq : d.requestEvents = [])
    (hresp : d.responseEvents = [setBodyRespEvent EventTypeBefore bs])
    (hcl : d.client = fun _ => Sum.inl resp)
    (herr : d.errorListeners = [])
    (hdone : d.doneListeners = []) :
    ((d.Do).2 = (some resp, some bs, none))
    ∧ ((d.Do).1.bodyReadCount = d.bodyReadCount) := by
  rw [Do_result d hb]
  have hab := afterBuild_ctl d
  obtain ⟨h1, h2, h3, h4, h5, h6, h7, h8⟩ :=
    doCore_body_preset (d.afterBuild) bs resp []
      (by rw [hab.2.2.2.1, hreq])
      (by rw [hab.2.2.2.2.1, hresp]; simp)
      (by rw [hab.2.2.2.2.2.1, hcl])
  rcases hdo : (d.afterBuild).doCore with ⟨d3, e3⟩
  rw [hdo] at h1 h2 h3 h4 h5 h6 h7 h8
  dsimp only at h1 h2 h3 h4 h5 h6 h7 h8
  subst h1
  dsimp only
  have hres := doneFinal_result d3 none
    (by rw [h6, hab.1, herr])
    (by rw [h7]; exact afterBuild_done_cancel d hdone)
  refine ⟨?_, ?_⟩
  · rw [h2, h3, hres.1]
  · rw [hres.2.2.1, h5, hab.2.2.1]

/-- C10.  When a Before-phase response listener pre-populates the body,
`do` returns right after the Before phase: the body read is skipped and
the After-phase response listeners are never fired, as witnessed by the
untouched listener log. -/
theorem claim_C10_after_skipped (d : Dusk) (bs : List Nat) (resp : Resp) (aft : List Nat)
    (hb : d.buildErr = none)
    (hreq : d.requestEvents = [])
    (hresp : d.responseEvents
      = setBodyRespEvent EventTypeBefore bs :: aft.map (logRespEvent EventTypeAfter))
    (hcl : d.client = fun _ => Sum.inl resp)
    (herr : d.errorListeners = [])
    (hdone : d.doneListeners = []) :
    ((d.Do).1.data.log = d.data.log)
    ∧ ((d.Do).1.bodyReadCount = d.bodyReadCount)
    ∧ ((d.Do).2.2.2 = none) := by
  rw [Do_result d hb]
  have hab := afterBuild_ctl d
  obtain ⟨h1, h2, h3, h4, h5, h6, h7, h8⟩ :=
    doCore_body_preset (d.afterBuild) bs resp aft
      (by rw [hab.2.2.2.1, hreq])
      (by rw [hab.2.2.2.2.1, hresp])
      (by rw [hab.2.2.2.2.2.1, hcl])
  rcases hdo : (d.afterBuild).doCore with ⟨d3, e3⟩
  rw [hdo] at h1 h2 h3 h4 h5 h6 h7 h8
  dsimp only at h1 h2 h3 h4 h5 h6 h7 h8
  subst h1
  dsimp only
  have hres := doneFinal_result d3 none
    (by rw [h6, hab.1, herr])
    (by rw [h7]; exact afterBuild_done_cancel d hdone)
  refine ⟨?_, ?_, ?_⟩
  · rw [hres.2.2.2, h4, hab.2.2.2.2.2.2.2.2]
  · rw [hres.2.2.1, h5, hab.2.2.1]
  · rw [hres.1]

/-- A concrete request whose Before-phase response listener sets the
body to `[7, 8]`; the transport answers status 200 with stream `[1]`. -/
def duskC6 : Dusk :=
  { url := "/x", client := fun _ => Sum.inl ⟨200, [1]⟩,
    responseEvents := [setBodyRespEvent EventTypeBefore [7, 8]] }

/-- Witness for C6 at `duskC6`. -/
theorem claim_C6_preset_body_witness :
    (duskC6.buildErr = none ∧ duskC6.requestEvents = []
      ∧ duskC6.responseEvents = [setBodyRespEvent EventTypeBefore [7, 8]]
      ∧ duskC6.errorListeners = [] ∧ duskC6.doneListeners = [])
    ∧ ((duskC6.Do).2 = (some ⟨200, [1]⟩, some [7, 8], none)
      ∧ (duskC6.Do).1.bodyReadCount = duskC6.bodyReadCount) :=
  ⟨⟨rfl, rfl, rfl, rfl, rfl⟩,
   claim_C6_preset_body duskC6 [7, 8] ⟨200, [1]⟩ rfl rfl rfl rfl rfl rfl⟩

/-- A concrete request with a body-presetting Before listener and one
After-phase logging listener (id 5). -/
def duskC10 : Dusk :=
  { url := "/x", client := fun _ => Sum.inl ⟨200, [1]⟩,
    responseEvents := [setBodyRespEvent EventTypeBefore [7], logRespEvent EventTypeAfter 5] }

/-- Witness for C10 at `duskC10`. -/
theorem claim_C10_after_skipped_witness :
    (duskC10.buildErr = none ∧ duskC10.requestEvents = []
      ∧ duskC10.responseEvents
          = setBodyRespEvent EventTypeBefore [7] :: [5].map (logRespEvent EventTypeAfter)
      ∧ duskC10.errorListeners = [] ∧ duskC10.doneListeners = [])
    ∧ ((duskC10.Do).1.data.log = duskC10.data.log
      ∧ (duskC10.Do).1.bodyReadCount = duskC10.bodyReadCount
      ∧ (duskC10.Do).2.2.2 = none) :=
  ⟨⟨rfl, rfl, rfl, rfl, rfl⟩,
   claim_C10_after_skipped duskC10 [7] ⟨200, [1]⟩ [5] rfl rfl rfl rfl rfl rfl⟩

/-! ### Tracer statistics (claim C8) -/

/-- C8 counterexample.  `HTTPTimeline.Stats` (the src/dusk.go revision)
guards only the start timestamp: with `DNSStart = 5` and `DNSDone`
unset it reports the negative garbage duration `-5`.  And even
`HTTPTrace.Stats` does not yield zero for a content transfer whose end
(`Done`) is unset: `Done` is defaulted to `now`, so with first byte at
5 and `now = 9` it reports 4, not 0. -/
theorem claim_C8_counterexample :
    ((HTTPTimeline.Stats { Start := 1, DNSStart := 5 } 9).DNSLookup = -5
      ∧ ((-5 : Int) < 0))
    ∧ ((HTTPTrace.Stats { Start := 1, GotFirstResponseByte := 5 } 9).ContentTransfer = 4
      ∧ ((4 : Int) ≠ 0)) :=
  ⟨⟨by decide, by decide⟩, by decide, by decide⟩

/-- C8 as amended.  For `HTTPTrace.Stats` (the revision with the
mutex-protected tracer), the DNS, TCP-connection, TLS-handshake and
server-processing durations are zero whenever either endpoint of the
phase is unset, and the content transfer is zero whenever its start
(first response byte) is unset — never a negative or garbage value for
such a phase.  (An unset `Done` is first defaulted to the current time,
and `HTTPTimeline.Stats` checks only start timestamps, so neither is
covered by the zero guarantee.) -/
theorem claim_C8_amended (ht : HTTPTrace) (now : Nat) :
    ((ht.DNSStart = 0 ∨ ht.DNSDone = 0) → (ht.Stats now).DNSLookup = 0)
    ∧ ((ht.ConnectStart = 0 ∨ ht.ConnectDone = 0) → (ht.Stats now).TCPConnection = 0)
    ∧ ((ht.TLSHandshakeStart = 0 ∨ ht.TLSHandshakeDone = 0) → (ht.Stats now).TLSHandshake = 0)
    ∧ ((ht.GotConnect = 0 ∨ ht.GotFirstResponseByte = 0) → (ht.Stats now).ServerProcessing = 0)
    ∧ (ht.GotFirstResponseByte = 0 → (ht.Stats now).ContentTransfer = 0) := by
  unfold HTTPTrace.Stats
  refine ⟨fun h => ?_, fun h => ?_, fun h => ?_, fun h => ?_, fun h => ?_⟩ <;>
    first
      | (rcases h with h | h <;> simp [h])
      | simp [h]

/-- Witness for the amended C8 at the all-unset tracer state. -/
theorem claim_C8_amended_witness :
    ((HTTPTrace.Stats {} 9).DNSLookup = 0)
    ∧ ((HTTPTrace.Stats {} 9).TCPConnection = 0)
    ∧ ((HTTPTrace.Stats {} 9).TLSHandshake = 0)
    ∧ ((HTTPTrace.Stats {} 9).ServerProcessing = 0)
    ∧ ((HTTPTrace.Stats {} 9).ContentTransfer = 0) :=
  ⟨(claim_C8_amended {} 9).1 (Or.inl rfl),
   (claim_C8_amended {} 9).2.1 (Or.inl rfl),
   (claim_C8_amended {} 9).2.2.1 (Or.inl rfl),
   (claim_C8_amended {} 9).2.2.2.1 (Or.inl rfl),
   (claim_C8_amended {} 9).2.2.2.2 rfl⟩

/-! ### URL rendering (claim C9) -/

/-- C9 counterexample.  With path parameter `id=123` on `/:id`, query
`type=2` added first (via `Queries`) and `category=3` added second (via
`Query`), the rendered URL is `/123?category=3&type=2` —
`url.Values.Encode` sorts by key — not the insertion-order rendering
`/123?type=2&category=3` the claim demands. -/
theorem claim_C9_counterexample :
    (((((Get {} "/:id").Param "id" "123").Queries [("type", "2")]).Query
        "category" "3").GetURL = "/123?category=3&type=2")
    ∧ ("/123?category=3&type=2" ≠ "/123?type=2&category=3") :=
  ⟨by decide, by decide⟩

/-- C9 as amended.  Path parameter `id=123` on template `/:id` renders
`/123`; query parameters are appended joined with `&` when the
(substituted) URL already contains `?` and with `?` otherwise; the
parameters appear sorted by parameter name (`url.Values.Encode` sorts
keys), independently of the insertion order of the `Query`/`Queries`
calls. -/
theorem claim_C9_amended :
    (((((Get {} "/:id").Param "id" "123").Queries [("type", "2")]).Query
        "category" "3").GetURL = "/123?category=3&type=2")
    ∧ (((((Get {} "/:id").Param "id" "123").Query "category" "3").Query
        "type" "2").GetURL = "/123?category=3&type=2")
    ∧ (((((Get {} "/:id?x=1").Param "id" "123").Queries [("type", "2")]).Query
        "category" "3").GetURL = "/123?x=1&category=3&type=2")
    ∧ (((Get {} "/:id").Param "id" "123").GetURL = "/123") :=
  ⟨by decide, by decide, by decide, by decide⟩

end DuskVerif
